import Mathlib

/-!
Verification of the image cleanup pipeline (`src/image/cleanup_image.py`,
function `process_image`) against its natural-language specification.

The Python function is shallowly embedded below.  The driver logic (parameter
validation, existence check, directory creation, save-parameter selection,
file write) is translated directly from the source.  The pixel-level imaging
primitives (`ImageOps.exif_transpose`, `ImageOps.grayscale`, `ImageEnhance.*`,
`Image.resize`, `Image.point`, `Image.convert`) belong to the external PIL
codec collaborator whose code is not part of this repository; those are
modelled from the spec (sections 4.1-4.4 of spec.md), with doc comments
marking each such definition.  Machine floats are modelled as exact rationals
(every IEEE float denotes a rational), and Python `round` is modelled as
round-half-to-even, which is its documented behaviour.
-/

namespace CleanupImage

/-- Python `round` on an exact rational value: round half to even
(banker's rounding), as documented for Python 3 `round`. -/
def pyRound (q : ℚ) : ℤ :=
  let f : ℤ := ⌊q⌋
  let r : ℚ := q - (f : ℚ)
  if r < 1 / 2 then f
  else if 1 / 2 < r then f + 1
  else if f % 2 = 0 then f else f + 1

/-- Round a rational to the nearest integer and clamp into the byte range
0..255.  Used by the spec-modelled enhancement primitives. -/
def clampRound (q : ℚ) : ℕ := (min 255 (max 0 ⌊q + 1 / 2⌋)).toNat

/-- Python `str.lower`, restricted to the ASCII file extensions that occur
here. -/
def strLower (s : String) : String := String.mk (s.data.map Char.toLower)

/-- A pixel: red, green and blue byte values.  After the grayscale stage all
three channels coincide. -/
abbrev Pix := ℕ × ℕ × ℕ

/-- A raster pixel grid, row major. -/
abbrev Grid := List (List Pix)

/-- Number of pixel columns (length of the first row). -/
def gridWidth (g : Grid) : ℕ := (g.headD []).length

/-- Number of pixel rows. -/
def gridHeight (g : Grid) : ℕ := g.length

/-- Pixel access with a black default outside the grid. -/
def getPix (g : Grid) (i j : ℕ) : Pix := ((g.getD i []).getD j (0, 0, 0))

/-- Modelled from the spec: the codec's RGB-to-luminance reduction used by
`ImageOps.grayscale` (ITU-R 601-2 weights, integer arithmetic). -/
def lum (p : Pix) : ℕ := (p.1 * 299 + p.2.1 * 587 + p.2.2 * 114) / 1000

/-- Pixel depth / mode of the in-memory raster: source colour, 8-bit
grayscale (PIL mode L), or 1-bit (PIL mode 1, stored as 0/255 values). -/
inductive PxMode
  | color
  | gray
  | bw
deriving DecidableEq

/-- The in-memory decoded raster: pixel grid, mode, optional EXIF metadata
block (opaque bytes) and the EXIF orientation tag (1 = upright). -/
structure Image where
  px : Grid
  mode : PxMode
  exif : Option (List ℕ)
  orient : ℕ
deriving DecidableEq

def Image.width (im : Image) : ℕ := gridWidth im.px

def Image.height (im : Image) : ℕ := gridHeight im.px

/-- Mirror a grid left-right. -/
def flipH (g : Grid) : Grid := g.map List.reverse

/-- Mirror a grid top-bottom. -/
def flipV (g : Grid) : Grid := g.reverse

/-- Rotate a grid by 180 degrees. -/
def rot180 (g : Grid) : Grid := (g.map List.reverse).reverse

/-- Rotate a grid by 90 degrees clockwise. -/
def rot90cw (g : Grid) : Grid := (g.reverse).transpose

/-- Rotate a grid by 90 degrees counterclockwise. -/
def rot90ccw (g : Grid) : Grid := (g.transpose).reverse

/-- Modelled from the spec: application of an EXIF orientation tag (1..8) to
the pixel buffer, as done by `ImageOps.exif_transpose`. -/
def applyOrientation : ℕ → Grid → Grid
  | 2, g => flipH g
  | 3, g => rot180 g
  | 4, g => flipV g
  | 5, g => g.transpose
  | 6, g => rot90cw g
  | 7, g => rot180 g.transpose
  | 8, g => rot90ccw g
  | _, g => g

/-- Modelled from the spec: `ImageOps.exif_transpose` - the pixel buffer is
rewritten to the display orientation and the orientation tag is cleared,
preventing double rotation downstream (spec section 4.1). -/
def exifTransposeStage (im : Image) : Image :=
  { im with px := applyOrientation im.orient im.px, orient := 1 }

/-- Modelled from the spec: `ImageOps.grayscale` - reduce to single-channel
8-bit luminance (all three stored channels become the luminance value). -/
def grayscaleStage (im : Image) : Image :=
  { im with
    px := im.px.map (fun row => row.map (fun p => (lum p, lum p, lum p))),
    mode := PxMode.gray }

/-- Modelled from the spec: one channel of an enhancement operation - a
scalar multiplier on the deviation from a neutral baseline
(spec section 4.2), rounded and clamped back into the byte range. -/
def enhanceChan (base f : ℚ) (c : ℕ) : ℕ := clampRound (base + f * ((c : ℚ) - base))

/-- Modelled from the spec: `ImageEnhance.Brightness` - neutral baseline is
black (0), so the factor scales each channel. -/
def brightnessStage (f : ℚ) (im : Image) : Image :=
  { im with
    px := im.px.map (fun row => row.map (fun p =>
      (enhanceChan 0 f p.1, enhanceChan 0 f p.2.1, enhanceChan 0 f p.2.2))) }

/-- Mean luminance of a grid, as a rational. -/
def meanL (g : Grid) : ℚ :=
  ((g.map (fun r => (r.map lum).sum)).sum : ℕ) / ((g.map List.length).sum : ℕ)

/-- Modelled from the spec: `ImageEnhance.Contrast` - neutral baseline is the
uniform gray image at the (rounded) mean luminance of the input. -/
def contrastStage (f : ℚ) (im : Image) : Image :=
  { im with
    px := im.px.map (fun row => row.map (fun p =>
      (enhanceChan ((⌊meanL im.px + 1 / 2⌋ : ℤ) : ℚ) f p.1,
       enhanceChan ((⌊meanL im.px + 1 / 2⌋ : ℤ) : ℚ) f p.2.1,
       enhanceChan ((⌊meanL im.px + 1 / 2⌋ : ℤ) : ℚ) f p.2.2))) }

/-- Map a function receiving the column index over a row, starting at a
given index. -/
def mapRowFrom (f : ℕ → Pix → Pix) : ℕ → List Pix → List Pix
  | _, [] => []
  | j, p :: ps => f j p :: mapRowFrom f (j + 1) ps

/-- Map a function receiving row and column indices over a grid. -/
def mapGridFrom (f : ℕ → ℕ → Pix → Pix) : ℕ → Grid → Grid
  | _, [] => []
  | i, r :: rs => mapRowFrom (f i) 0 r :: mapGridFrom f (i + 1) rs

/-- True on the outermost ring of pixels, where the smoothing filter leaves
the pixel unchanged. -/
def isBorder (g : Grid) (i j : ℕ) : Bool :=
  decide (i = 0) || decide (j = 0) ||
  decide (gridHeight g ≤ i + 1) || decide ((g.getD i []).length ≤ j + 1)

/-- Modelled from the spec: one channel of the 3x3 smoothing filter
(centre weight 5, neighbours weight 1, divisor 13) that provides the
neutral baseline of the sharpness enhancer. -/
def smoothChan (c : Pix → ℕ) (g : Grid) (i j : ℕ) : ℚ :=
  ((c (getPix g (i - 1) (j - 1)) + c (getPix g (i - 1) j) + c (getPix g (i - 1) (j + 1)) +
    c (getPix g i (j - 1)) + 5 * c (getPix g i j) + c (getPix g i (j + 1)) +
    c (getPix g (i + 1) (j - 1)) + c (getPix g (i + 1) j) + c (getPix g (i + 1) (j + 1)) : ℕ) : ℚ)
  / 13

/-- Modelled from the spec: `ImageEnhance.Sharpness` - neutral baseline is
the smoothed image; border pixels use themselves as baseline (the filter
copies the border), so they are unchanged for every factor. -/
def sharpnessStage (f : ℚ) (im : Image) : Image :=
  { im with
    px := mapGridFrom (fun i j p =>
      if isBorder im.px i j then
        (enhanceChan (p.1 : ℚ) f p.1,
         enhanceChan (p.2.1 : ℚ) f p.2.1,
         enhanceChan (p.2.2 : ℚ) f p.2.2)
      else
        (enhanceChan (smoothChan (fun q => q.1) im.px i j) f p.1,
         enhanceChan (smoothChan (fun q => q.2.1) im.px i j) f p.2.1,
         enhanceChan (smoothChan (fun q => q.2.2) im.px i j) f p.2.2)) 0 im.px }

/-- Source lines 52-55: the resample step.  The new dimensions are
`max(1, int(round(dim * scale_factor)))`; the pixel content comes from the
codec's resampling filter, modelled here by coordinate sampling (no claim
depends on the resampled pixel values, only on the dimensions). -/
def resizeStage (s : ℚ) (im : Image) : Image :=
  { im with
    px := (List.range (max 1 (pyRound ((im.height : ℚ) * s)).toNat)).map (fun i =>
      (List.range (max 1 (pyRound ((im.width : ℚ) * s)).toNat)).map (fun j =>
        getPix im.px
          (i * im.height / max 1 (pyRound ((im.height : ℚ) * s)).toNat)
          (j * im.width / max 1 (pyRound ((im.width : ℚ) * s)).toNat))) }

/-- Source line 63: the hard-threshold point operation
`lambda p: 255 if p >= bw_threshold else 0` applied to a channel. -/
def bwPoint (t : ℤ) (c : ℕ) : ℕ := if t ≤ (c : ℤ) then 255 else 0

/-- Source line 63: `im.point(lambda p: 255 if p >= bw_threshold else 0,
mode='L')` - hard threshold, result still 8-bit grayscale. -/
def thresholdStage (t : ℤ) (im : Image) : Image :=
  { im with
    px := im.px.map (fun row => row.map (fun p =>
      (bwPoint t p.1, bwPoint t p.2.1, bwPoint t p.2.2))),
    mode := PxMode.gray }

/-- Modelled from the spec: one row of Floyd-Steinberg error diffusion.
Arguments: error arriving from the left neighbour, partially accumulated
next-row errors for the previous and the current column, the remaining
pixels of the row, and the errors arriving from the previous row.  Returns
the quantised row and the next-row error list (first entry is for the
column left of the row start and is discarded by the caller). -/
def fsRowAux : ℚ → ℚ → ℚ → List ℕ → List ℚ → List ℕ × List ℚ
  | _, b0, _, [], _ => ([], [b0])
  | eIn, b0, b1, p :: ps, errs =>
    let val : ℚ := (p : ℚ) + eIn + errs.headD 0
    let out : ℕ := if (128 : ℚ) ≤ val then 255 else 0
    let e : ℚ := val - (out : ℚ)
    let rest := fsRowAux (7 / 16 * e) (b1 + 5 / 16 * e) (1 / 16 * e) ps errs.tail
    (out :: rest.1, (b0 + 3 / 16 * e) :: rest.2)

/-- Modelled from the spec: full-image Floyd-Steinberg error-diffusion
dithering (`Image.FLOYDSTEINBERG`), row major, threshold 128. -/
def fsDither : List ℚ → List (List ℕ) → List (List ℕ)
  | _, [] => []
  | errs, r :: rs =>
    let res := fsRowAux 0 0 0 r errs
    res.1 :: fsDither res.2.tail rs

/-- Modelled from the spec: `im.convert('1', dither=...)` - conversion to
1-bit depth via error-diffusion dithering when enabled, or a flat
quantisation at 128 when disabled (spec section 4.4 step 2). -/
def oneBitStage (d : Bool) (im : Image) : Image :=
  { im with
    px := (if d then fsDither [] (im.px.map (fun row => row.map lum))
           else (im.px.map (fun row => row.map lum)).map (fun row =>
             row.map (fun v => if 128 ≤ v then 255 else 0))).map
      (fun row => row.map (fun v => (v, v, v))),
    mode := PxMode.bw }

/-- Source lines 61-64: the optional binarizer - hard threshold first, then
1-bit conversion. -/
def binarizeStage (t : ℤ) (d : Bool) (im : Image) : Image :=
  oneBitStage d (thresholdStage t im)

/-- The keyword parameters of `process_image`, with the source's default
values (floats as exact rationals). -/
structure Args where
  scale : ℚ
  brightness : ℚ := 6 / 5
  contrast : ℚ := 9 / 10
  sharpness : ℚ := 13 / 10
  pureBw : Bool := false
  bwThreshold : ℤ := 128
  dither : Bool := true
deriving DecidableEq

/-- Source lines 40-64: the in-memory transform sequence of
`process_image`, exactly in source order. -/
def pipelineImage (a : Args) (im0 : Image) : Image :=
  let im1 := exifTransposeStage im0
  let im2 := grayscaleStage im1
  let im3 := brightnessStage a.brightness im2
  let im4 := contrastStage a.contrast im3
  let im5 := resizeStage a.scale im4
  let im6 := sharpnessStage a.sharpness im5
  if a.pureBw then binarizeStage a.bwThreshold a.dither im6 else im6

/-- The pipeline up to (but excluding) the resample step: the image whose
dimensions the resample step scales. -/
def preResize (a : Args) (im : Image) : Image :=
  contrastStage a.contrast (brightnessStage a.brightness (grayscaleStage (exifTransposeStage im)))

/-- The stage order claimed by the spec, as an explicit ordered list of
stage operations (spec section 9). -/
def specStageList (a : Args) : List (Image → Image) :=
  [exifTransposeStage, grayscaleStage, brightnessStage a.brightness,
   contrastStage a.contrast, resizeStage a.scale, sharpnessStage a.sharpness] ++
  (if a.pureBw then [thresholdStage a.bwThreshold, oneBitStage a.dither] else [])

/-- Apply a list of stages in order. -/
def applyStages (stages : List (Image → Image)) (im : Image) : Image :=
  stages.foldl (fun i f => f i) im

/-- The codec save-option dictionary built by source lines 71-83.  Absent
dictionary keys are `none` / `false`. -/
structure SaveParams where
  quality : Option ℕ := none
  subsampling : Option ℕ := none
  optimize : Bool := false
  method : Option ℕ := none
  exif : Option (List ℕ) := none
deriving DecidableEq

/-- Python truthiness of the optional EXIF bytes (`if exif_bytes:`): `None`
and empty bytes are falsy. -/
def exifTruthy : Option (List ℕ) → Bool
  | none => false
  | some b => !b.isEmpty

/-- Source lines 70-83: save-parameter selection from the lower-cased
destination suffix, translated branch by branch. -/
def selectSaveParams (sfx : String) (exifBytes : Option (List ℕ)) : SaveParams :=
  if strLower sfx ∈ ([".jpg", ".jpeg"] : List String) then
    { quality := some 90, subsampling := some 0, optimize := true,
      exif := if exifTruthy exifBytes then exifBytes else none }
  else if strLower sfx = ".webp" then
    { quality := some 95, method := some 6 }
  else if strLower sfx = ".png" then
    { optimize := true }
  else
    {}

/-- The JPEG save parameters claimed by the spec encoding table, with the
EXIF block re-attached when one is present (present = some nonempty block). -/
def specJpegParams (e : Option (List ℕ)) : SaveParams :=
  { quality := some 90, subsampling := some 0, optimize := true,
    exif := match e with
      | some (b :: bs) => some (b :: bs)
      | _ => none }

/-- The spec's encoding table (spec section 4.5), as a mapping from
normalised extension to save parameters. -/
def specEncTable : List (String × (Option (List ℕ) → SaveParams)) :=
  [(".jpg", specJpegParams), (".jpeg", specJpegParams),
   (".webp", fun _ => { quality := some 95, method := some 6 }),
   (".png", fun _ => { optimize := true })]

/-- Save parameters as the claim states them: looked up in the spec table
under the case-normalised extension, codec defaults otherwise. -/
def claimedSaveParams (sfx : String) (e : Option (List ℕ)) : SaveParams :=
  match specEncTable.find? (fun ent => decide (ent.1 = strLower sfx)) with
  | some ent => ent.2 e
  | none => {}

/-- A `pathlib.Path`: parent directory components, stem, and suffix
(the extension including the leading dot, possibly empty). -/
structure PyPath where
  dir : List String
  stem : String
  suffix : String
deriving DecidableEq

/-- The components of the path itself, viewed as a directory entry. -/
def PyPath.asDir (p : PyPath) : List String := p.dir ++ [p.stem ++ p.suffix]

/-- String rendering of a path, used in the `FileNotFoundError` message. -/
def pathStr (p : PyPath) : String :=
  String.intercalate "/" (p.dir ++ [p.stem ++ p.suffix])

/-- A stored file: the decoded raster it contains together with the save
parameters it was encoded with. -/
structure FileData where
  img : Image
  params : SaveParams
deriving DecidableEq

/-- The filesystem model: files (association list, first match wins) and
the set of existing directories. -/
structure FS where
  files : List (PyPath × FileData)
  dirs : List (List String)
deriving DecidableEq

def getFile (fs : FS) (p : PyPath) : Option FileData :=
  (fs.files.find? (fun e => decide (e.1 = p))).map Prod.snd

def setFile (fs : FS) (p : PyPath) (d : FileData) : FS :=
  { fs with files := (p, d) :: fs.files }

/-- All nonempty initial segments of a component list: the directories
created by `mkdir(parents=True)`. -/
def initSegs : List String → List (List String)
  | [] => []
  | x :: xs => [x] :: (initSegs xs).map (fun l => x :: l)

def mkdirParents (fs : FS) (d : List String) : FS :=
  { fs with dirs := initSegs d ++ fs.dirs }

/-- `Path.exists` on a directory path; the empty parent (current directory)
always exists. -/
def DirExists (fs : FS) (d : List String) : Prop := d = [] ∨ d ∈ fs.dirs

instance (fs : FS) (d : List String) : Decidable (DirExists fs d) :=
  inferInstanceAs (Decidable (d = [] ∨ d ∈ fs.dirs))

/-- `Path.exists` on the source path: a file or a directory of that name. -/
def PathExists (fs : FS) (p : PyPath) : Prop :=
  (getFile fs p).isSome = true ∨ p.asDir ∈ fs.dirs

instance (fs : FS) (p : PyPath) : Decidable (PathExists fs p) :=
  inferInstanceAs (Decidable ((getFile fs p).isSome = true ∨ p.asDir ∈ fs.dirs))

/-- Source lines 37-38: create the output directory (with parents) when it
does not already exist. -/
def ensureDir (fs : FS) (d : List String) : FS :=
  if DirExists fs d then fs else mkdirParents fs d

/-- The Python exceptions `process_image` can raise in the modelled part
(codec failures on a path that exists but is not a decodable file are
collapsed into `codecError`). -/
inductive PyErr
  | valueError (msg : String)
  | fileNotFoundError (msg : String)
  | codecError (msg : String)
deriving DecidableEq

/-- Source lines 27-85: the whole of `process_image`, as a function from
the initial filesystem to the raised exception (if any) and the final
filesystem.  The filesystem is returned in every case so that the absence
of writes on the error paths is an explicit, provable fact. -/
def process_image (fs : FS) (input_path output_path : PyPath) (a : Args) :
    Except PyErr Unit × FS :=
  if a.scale ≤ 0 then
    (Except.error (PyErr.valueError "scale_factor must be > 0"), fs)
  else if ¬ PathExists fs input_path then
    (Except.error (PyErr.fileNotFoundError ("Input image not found: " ++ pathStr input_path)), fs)
  else
    let fs1 := ensureDir fs output_path.dir
    match getFile fs1 input_path with
    | none => (Except.error (PyErr.codecError "cannot identify image file"), fs1)
    | some fd =>
      let im := pipelineImage a fd.img
      (Except.ok (), setFile fs1 output_path ⟨im, selectSaveParams output_path.suffix im.exif⟩)

/-- A uniform single-mode raster of the given dimensions and value. -/
def uniformImg (w h v : ℕ) : Image :=
  ⟨List.replicate h (List.replicate w (v, v, v)), PxMode.gray, none, 1⟩

/-- A pixel whose channels all fit in a byte. -/
def PixValid (p : Pix) : Prop := p.1 ≤ 255 ∧ p.2.1 ≤ 255 ∧ p.2.2 ≤ 255

/-- A raster whose pixel values all fit in a byte. -/
def ImageValid (im : Image) : Prop := ∀ row ∈ im.px, ∀ p ∈ row, PixValid p

instance (im : Image) : Decidable (ImageValid im) := by
  unfold ImageValid PixValid
  infer_instance

/-- Concrete 1x1 black source image used by witnesses and counterexamples. -/
def img1 : Image := ⟨[[(0, 0, 0)]], PxMode.color, none, 1⟩

def fd1 : FileData := ⟨img1, {}⟩

def pIn : PyPath := ⟨[], "a", ".png"⟩

def pOut : PyPath := ⟨[], "b", ".png"⟩

def pWebp : PyPath := ⟨[], "b", ".WEBP"⟩

def pMissing : PyPath := ⟨[], "zzz", ".png"⟩

def fsW : FS := ⟨[(pIn, fd1)], []⟩

@[simp] lemma exif_exifTransposeStage (im : Image) : (exifTransposeStage im).exif = im.exif := rfl

@[simp] lemma exif_grayscaleStage (im : Image) : (grayscaleStage im).exif = im.exif := rfl

@[simp] lemma exif_brightnessStage (f : ℚ) (im : Image) : (brightnessStage f im).exif = im.exif := rfl

@[simp] lemma exif_contrastStage (f : ℚ) (im : Image) : (contrastStage f im).exif = im.exif := rfl

@[simp] lemma exif_resizeStage (s : ℚ) (im : Image) : (resizeStage s im).exif = im.exif := rfl

@[simp] lemma exif_sharpnessStage (f : ℚ) (im : Image) : (sharpnessStage f im).exif = im.exif := rfl

@[simp] lemma exif_thresholdStage (t : ℤ) (im : Image) : (thresholdStage t im).exif = im.exif := rfl

@[simp] lemma exif_oneBitStage (d : Bool) (im : Image) : (oneBitStage d im).exif = im.exif := rfl

/-- The in-memory transform sequence never touches the EXIF block: the EXIF
bytes read at save time are those of the decoded source. -/
lemma pipelineImage_exif (a : Args) (im : Image) : (pipelineImage a im).exif = im.exif := by
  cases hbw : a.pureBw <;> simp [pipelineImage, hbw, binarizeStage]

lemma width_map_map {α β : Type} (g : List (List α)) (f : α → β) :
    ((g.map (fun r => r.map f)).headD []).length = (g.headD []).length := by
  cases g <;> simp

lemma fsRowAux_len :
    ∀ (ps : List ℕ) (eIn b0 b1 : ℚ) (errs : List ℚ),
      (fsRowAux eIn b0 b1 ps errs).1.length = ps.length := by
  intro ps
  induction ps with
  | nil => intro eIn b0 b1 errs; rfl
  | cons p ps ih => intro eIn b0 b1 errs; simp [fsRowAux, ih]

lemma fsDither_len :
    ∀ (rows : List (List ℕ)) (errs : List ℚ), (fsDither errs rows).length = rows.length := by
  intro rows
  induction rows with
  | nil => intro errs; rfl
  | cons r rs ih => intro errs; simp [fsDither, ih]

lemma fsDither_width (rows : List (List ℕ)) (errs : List ℚ) :
    ((fsDither errs rows).headD []).length = (rows.headD []).length := by
  cases rows with
  | nil => rfl
  | cons r rs => simp [fsDither, fsRowAux_len]

lemma mapRowFrom_length (f : ℕ → Pix → Pix) :
    ∀ (j : ℕ) (l : List Pix), (mapRowFrom f j l).length = l.length := by
  intro j l
  induction l generalizing j with
  | nil => rfl
  | cons p ps ih => simp [mapRowFrom, ih]

lemma mapGridFrom_length (f : ℕ → ℕ → Pix → Pix) :
    ∀ (i : ℕ) (g : Grid), (mapGridFrom f i g).length = g.length := by
  intro i g
  induction g generalizing i with
  | nil => rfl
  | cons r rs ih => simp [mapGridFrom, ih]

lemma width_grayscaleStage (im : Image) : (grayscaleStage im).width = im.width :=
  width_map_map im.px _

lemma height_grayscaleStage (im : Image) : (grayscaleStage im).height = im.height :=
  List.length_map _ _

lemma width_brightnessStage (f : ℚ) (im : Image) : (brightnessStage f im).width = im.width :=
  width_map_map im.px _

lemma height_brightnessStage (f : ℚ) (im : Image) : (brightnessStage f im).height = im.height :=
  List.length_map _ _

lemma width_contrastStage (f : ℚ) (im : Image) : (contrastStage f im).width = im.width :=
  width_map_map im.px _

lemma height_contrastStage (f : ℚ) (im : Image) : (contrastStage f im).height = im.height :=
  List.length_map _ _

lemma width_thresholdStage (t : ℤ) (im : Image) : (thresholdStage t im).width = im.width :=
  width_map_map im.px _

lemma height_thresholdStage (t : ℤ) (im : Image) : (thresholdStage t im).height = im.height :=
  List.length_map _ _

lemma width_sharpnessStage (f : ℚ) (im : Image) : (sharpnessStage f im).width = im.width := by
  unfold sharpnessStage Image.width gridWidth
  cases hpx : im.px with
  | nil => rfl
  | cons r rs => simp [mapGridFrom, mapRowFrom_length]

lemma height_sharpnessStage (f : ℚ) (im : Image) : (sharpnessStage f im).height = im.height :=
  mapGridFrom_length _ _ _

lemma width_oneBitStage (d : Bool) (im : Image) : (oneBitStage d im).width = im.width := by
  unfold oneBitStage Image.width gridWidth
  cases d
  · simp only [Bool.false_eq_true, if_false]
    rw [width_map_map, width_map_map, width_map_map]
  · simp only [if_true]
    rw [width_map_map, fsDither_width, width_map_map]

lemma height_oneBitStage (d : Bool) (im : Image) : (oneBitStage d im).height = im.height := by
  unfold oneBitStage Image.height gridHeight
  cases d
  · simp
  · simp [fsDither_len]

lemma width_resizeStage (s : ℚ) (im : Image) :
    (resizeStage s im).width = max 1 (pyRound ((im.width : ℚ) * s)).toNat := by
  unfold resizeStage Image.width gridWidth
  have h1 : 0 < max 1 (pyRound ((im.height : ℚ) * s)).toNat :=
    Nat.lt_of_lt_of_le Nat.zero_lt_one (le_max_left 1 _)
  obtain ⟨m, hm⟩ := Nat.exists_eq_succ_of_ne_zero (Nat.pos_iff_ne_zero.mp h1)
  rw [hm]
  simp [List.range_succ_eq_map]

lemma height_resizeStage (s : ℚ) (im : Image) :
    (resizeStage s im).height = max 1 (pyRound ((im.height : ℚ) * s)).toNat := by
  unfold resizeStage Image.height gridHeight
  simp

/-- C1: For every image entering the resample step with width `w` and
height `h` and every scale factor `s > 0`, the resample step of
`process_image` produces dimensions `round(w*s)` by `round(h*s)`, each
clamped to a minimum of 1 pixel - and the remaining stages (sharpness,
optional binarization) preserve them, so these are also the output
dimensions of the whole transform. -/
theorem c1_resample_dims (a : Args) (im : Image) (_hs : 0 < a.scale) :
    (pipelineImage a im).width =
      max 1 (pyRound (((preResize a im).width : ℚ) * a.scale)).toNat ∧
    (pipelineImage a im).height =
      max 1 (pyRound (((preResize a im).height : ℚ) * a.scale)).toNat := by
  have hp : pipelineImage a im =
      if a.pureBw then
        binarizeStage a.bwThreshold a.dither
          (sharpnessStage a.sharpness (resizeStage a.scale (preResize a im)))
      else sharpnessStage a.sharpness (resizeStage a.scale (preResize a im)) := rfl
  rw [hp]
  cases hbw : a.pureBw
  · simp only [Bool.false_eq_true, if_false]
    rw [width_sharpnessStage, height_sharpnessStage, width_resizeStage, height_resizeStage]
    exact ⟨rfl, rfl⟩
  · simp only [if_true]
    rw [binarizeStage, width_oneBitStage, height_oneBitStage, width_thresholdStage,
      height_thresholdStage, width_sharpnessStage, height_sharpnessStage,
      width_resizeStage, height_resizeStage]
    exact ⟨rfl, rfl⟩

/-- Witness for C1 at a concrete input: scale factor 2 on a 1x1 image. -/
theorem c1_resample_dims_witness :
    (0 : ℚ) < 2 ∧
    ((pipelineImage ⟨2, 1, 1, 1, false, 128, true⟩ img1).width =
      max 1 (pyRound (((preResize ⟨2, 1, 1, 1, false, 128, true⟩ img1).width : ℚ) * 2)).toNat ∧
    (pipelineImage ⟨2, 1, 1, 1, false, 128, true⟩ img1).height =
      max 1 (pyRound (((preResize ⟨2, 1, 1, 1, false, 128, true⟩ img1).height : ℚ) * 2)).toNat) :=
  ⟨by norm_num, c1_resample_dims ⟨2, 1, 1, 1, false, 128, true⟩ img1 (by norm_num)⟩

/-- C3: In the enlargement pipeline the transform stages are applied in the
fixed order orientation normalization, grayscale conversion, brightness,
contrast (both pre-resize), resize, sharpness (post-resize), then the
optional binarization (threshold, then 1-bit conversion); brightness and
contrast never come after the resize and sharpness never before it.  The
source-order pipeline coincides with the fold of the spec's ordered stage
list. -/
theorem c3_stage_order (a : Args) (im : Image) :
    pipelineImage a im = applyStages (specStageList a) im := by
  cases hbw : a.pureBw <;>
    simp [pipelineImage, specStageList, applyStages, binarizeStage, hbw]

/-- C4: With `scale_factor <= 0`, `process_image` raises
`ValueError("scale_factor must be > 0")` and performs no filesystem writes:
the filesystem is returned unchanged, so no destination directory is created
and no destination file is written. -/
theorem c4_invalid_scale (fs : FS) (inP outP : PyPath) (a : Args) (h : a.scale ≤ 0) :
    process_image fs inP outP a =
      (Except.error (PyErr.valueError "scale_factor must be > 0"), fs) := by
  unfold process_image
  rw [if_pos h]

/-- Witness for C4 at a concrete input: scale factor 0. -/
theorem c4_invalid_scale_witness :
    (0 : ℚ) ≤ 0 ∧
    process_image fsW pIn pOut ⟨0, 1, 1, 1, false, 128, true⟩ =
      (Except.error (PyErr.valueError "scale_factor must be > 0"), fsW) :=
  ⟨le_refl 0, c4_invalid_scale fsW pIn pOut ⟨0, 1, 1, 1, false, 128, true⟩ (le_refl 0)⟩

/-- C5: With a valid scale factor and a source path that does not exist,
`process_image` raises `FileNotFoundError` and the filesystem is returned
unchanged - in particular no output directory has been created, and the
decode step (which comes later in the function) is never reached. -/
theorem c5_missing_source (fs : FS) (inP outP : PyPath) (a : Args)
    (hs : 0 < a.scale) (hnp : ¬ PathExists fs inP) :
    process_image fs inP outP a =
      (Except.error (PyErr.fileNotFoundError ("Input image not found: " ++ pathStr inP)), fs) := by
  unfold process_image
  rw [if_neg (not_le.mpr hs), if_pos hnp]

/-- Witness for C5 at a concrete input: a path absent from the filesystem. -/
theorem c5_missing_source_witness :
    (0 : ℚ) < 1 ∧ ¬ PathExists fsW pMissing ∧
    process_image fsW pMissing pOut ⟨1, 1, 1, 1, false, 128, true⟩ =
      (Except.error (PyErr.fileNotFoundError ("Input image not found: " ++ pathStr pMissing)), fsW) :=
  ⟨by norm_num, by decide,
   c5_missing_source fsW pMissing pOut ⟨1, 1, 1, 1, false, 128, true⟩ (by norm_num) (by decide)⟩

/-- A row whose pixels are all at a quantisation fixed point (0 or 255)
passes through Floyd-Steinberg error diffusion unchanged, producing no
error for the next row. -/
lemma fsRowAux_const (v : ℕ) (hv : (if (128 : ℚ) ≤ (v : ℚ) then (255 : ℕ) else 0) = v) :
    ∀ (ps : List ℕ) (errs : List ℚ) (b0 : ℚ),
      (∀ x ∈ ps, x = v) → (∀ e ∈ errs, e = 0) →
      fsRowAux 0 b0 0 ps errs = (ps, b0 :: List.replicate ps.length 0) := by
  intro ps
  induction ps with
  | nil =>
    intro errs b0 _ _
    simp [fsRowAux]
  | cons p ps ih =>
    intro errs b0 hp he
    have hpv : p = v := hp p (List.mem_cons_self p ps)
    have hhead : errs.headD 0 = 0 := by
      cases errs with
      | nil => rfl
      | cons e es => exact he e (List.mem_cons_self e es)
    have htail : ∀ e ∈ errs.tail, e = 0 := fun e hm => he e (List.mem_of_mem_tail hm)
    have hptail : ∀ x ∈ ps, x = v := fun x hx => hp x (List.mem_cons_of_mem p hx)
    simp only [fsRowAux, hhead, hpv, add_zero]
    rw [hv]
    simp only [sub_self, mul_zero, add_zero]
    rw [ih errs.tail 0 hptail htail]
    simp [List.replicate_succ, hv]

/-- A grid whose pixels are all at a quantisation fixed point passes
through Floyd-Steinberg dithering unchanged. -/
lemma fsDither_const (v : ℕ) (hv : (if (128 : ℚ) ≤ (v : ℚ) then (255 : ℕ) else 0) = v) :
    ∀ (rows : List (List ℕ)) (errs : List ℚ),
      (∀ r ∈ rows, ∀ x ∈ r, x = v) → (∀ e ∈ errs, e = 0) →
      fsDither errs rows = rows := by
  intro rows
  induction rows with
  | nil => intro errs _ _; rfl
  | cons r rs ih =>
    intro errs hr he
    simp only [fsDither]
    rw [fsRowAux_const v hv r errs 0 (hr r (List.mem_cons_self r rs)) he]
    simp only [List.tail_cons]
    rw [ih (List.replicate r.length 0)
      (fun q hq x hx => hr q (List.mem_cons_of_mem r hq) x hx)
      (fun e hm => List.eq_of_mem_replicate hm)]

/-- Thresholding a uniform grid yields a uniform grid. -/
lemma thresholdStage_uniform (t : ℤ) (w h v : ℕ) :
    (thresholdStage t (uniformImg w h v)).px =
      List.replicate h (List.replicate w (bwPoint t v, bwPoint t v, bwPoint t v)) := by
  simp [thresholdStage, uniformImg, List.map_replicate]

/-- One-bit conversion of a grid uniformly at a fixed-point value (0 or
255) yields the same uniform grid, with or without dithering. -/
lemma oneBitStage_uniform (d : Bool) (w h v : ℕ)
    (hl : lum (v, v, v) = v)
    (hv : (if (128 : ℚ) ≤ (v : ℚ) then (255 : ℕ) else 0) = v)
    (hn : (if 128 ≤ v then (255 : ℕ) else 0) = v) :
    (oneBitStage d ⟨List.replicate h (List.replicate w (v, v, v)), PxMode.gray, none, 1⟩).px =
      List.replicate h (List.replicate w (v, v, v)) := by
  unfold oneBitStage
  simp only [List.map_replicate, hl]
  cases d
  · simp [List.map_replicate, hn]
  · simp only [if_true]
    rw [fsDither_const v hv _ []
      (fun r hr x hx => by
        rw [List.eq_of_mem_replicate hr] at hx
        exact List.eq_of_mem_replicate hx)
      (fun e hm => absurd hm (List.not_mem_nil e))]
    simp [List.map_replicate]

/-- C2: With `pure_bw` enabled the binarizer thresholds first (values at or
above the threshold to 255, below to 0) and only then converts to 1-bit;
hence with threshold 128 a uniform raster of value 200 yields an
all-maximal-luminance 1-bit output and a uniform raster of value 50 an
all-minimal-luminance 1-bit output, for either dithering setting. -/
theorem c2_binarizer_uniform (w h : ℕ) (d : Bool) :
    (binarizeStage 128 d (uniformImg w h 200)).px =
      List.replicate h (List.replicate w ((255 : ℕ), (255 : ℕ), (255 : ℕ))) ∧
    (binarizeStage 128 d (uniformImg w h 200)).mode = PxMode.bw ∧
    (binarizeStage 128 d (uniformImg w h 50)).px =
      List.replicate h (List.replicate w ((0 : ℕ), (0 : ℕ), (0 : ℕ))) ∧
    (binarizeStage 128 d (uniformImg w h 50)).mode = PxMode.bw := by
  have h200 : thresholdStage 128 (uniformImg w h 200) =
      ⟨List.replicate h (List.replicate w (255, 255, 255)), PxMode.gray, none, 1⟩ := by
    unfold thresholdStage uniformImg
    have hb : bwPoint 128 200 = 255 := by decide
    simp [List.map_replicate, hb]
  have h50 : thresholdStage 128 (uniformImg w h 50) =
      ⟨List.replicate h (List.replicate w (0, 0, 0)), PxMode.gray, none, 1⟩ := by
    unfold thresholdStage uniformImg
    have hb : bwPoint 128 50 = 0 := by decide
    simp [List.map_replicate, hb]
  refine ⟨?_, rfl, ?_, rfl⟩
  · rw [binarizeStage, h200]
    exact oneBitStage_uniform d w h 255 (by decide) (by norm_num) (by decide)
  · rw [binarizeStage, h50]
    exact oneBitStage_uniform d w h 0 (by decide) (by norm_num) (by decide)

/-- At factor 1 an enhancement channel returns its input unchanged,
whatever the neutral baseline, as long as the input is a byte value. -/
lemma enhanceChan_one (b : ℚ) (c : ℕ) (hc : c ≤ 255) : enhanceChan b 1 c = c := by
  unfold enhanceChan clampRound
  have h1 : b + 1 * ((c : ℚ) - b) = (c : ℚ) := by ring
  rw [h1]
  have h2 : ⌊(c : ℚ) + 1 / 2⌋ = (c : ℤ) := by
    rw [Int.floor_eq_iff]
    constructor
    · push_cast
      linarith
    · push_cast
      linarith
  rw [h2]
  omega

lemma map_self {α : Type} (f : α → α) :
    ∀ (l : List α), (∀ x ∈ l, f x = x) → l.map f = l := by
  intro l
  induction l with
  | nil => intro _; rfl
  | cons x xs ih =>
    intro h
    simp only [List.map_cons]
    rw [h x (List.mem_cons_self x xs), ih (fun y hy => h y (List.mem_cons_of_mem x hy))]

lemma mapRowFrom_self (f : ℕ → Pix → Pix) :
    ∀ (l : List Pix) (j : ℕ), (∀ p ∈ l, ∀ k, f k p = p) → mapRowFrom f j l = l := by
  intro l
  induction l with
  | nil => intro j _; rfl
  | cons p ps ih =>
    intro j h
    simp only [mapRowFrom]
    rw [h p (List.mem_cons_self p ps) j, ih (j + 1) (fun q hq k => h q (List.mem_cons_of_mem p hq) k)]

lemma mapGridFrom_self (f : ℕ → ℕ → Pix → Pix) :
    ∀ (g : Grid) (i : ℕ), (∀ r ∈ g, ∀ p ∈ r, ∀ k l, f k l p = p) → mapGridFrom f i g = g := by
  intro g
  induction g with
  | nil => intro i _; rfl
  | cons r rs ih =>
    intro i h
    simp only [mapGridFrom]
    rw [mapRowFrom_self (f i) r 0 (fun p hp k => h r (List.mem_cons_self r rs) p hp i k),
      ih (i + 1) (fun q hq p hp k l => h q (List.mem_cons_of_mem r hq) p hp k l)]

/-- C8: An enhancement factor of 1.0 applied to brightness, to contrast, or
to sharpness independently is an identity operation on the pixel buffer,
for every image whose pixel values fit in a byte. -/
theorem c8_enhance_identity (im : Image) (hv : ImageValid im) :
    (brightnessStage 1 im).px = im.px ∧
    (contrastStage 1 im).px = im.px ∧
    (sharpnessStage 1 im).px = im.px := by
  refine ⟨?_, ?_, ?_⟩
  · show im.px.map _ = im.px
    refine map_self _ im.px (fun r hr => map_self _ r (fun p hp => ?_))
    obtain ⟨x, y, z⟩ := p
    obtain ⟨h1, h2, h3⟩ := hv _ hr _ hp
    simp only at h1 h2 h3
    simp [enhanceChan_one _ _ h1, enhanceChan_one _ _ h2, enhanceChan_one _ _ h3]
  · show im.px.map _ = im.px
    refine map_self _ im.px (fun r hr => map_self _ r (fun p hp => ?_))
    obtain ⟨x, y, z⟩ := p
    obtain ⟨h1, h2, h3⟩ := hv _ hr _ hp
    simp only at h1 h2 h3
    simp [enhanceChan_one _ _ h1, enhanceChan_one _ _ h2, enhanceChan_one _ _ h3]
  · show mapGridFrom _ 0 im.px = im.px
    refine mapGridFrom_self _ im.px 0 (fun r hr p hp k l => ?_)
    obtain ⟨x, y, z⟩ := p
    obtain ⟨h1, h2, h3⟩ := hv _ hr _ hp
    simp only at h1 h2 h3
    by_cases hb : isBorder im.px k l = true <;>
      simp [hb, enhanceChan_one _ _ h1, enhanceChan_one _ _ h2, enhanceChan_one _ _ h3]

/-- Witness for C8 at a concrete input: a 1x1 black image. -/
theorem c8_enhance_identity_witness :
    ImageValid img1 ∧
    ((brightnessStage 1 img1).px = img1.px ∧
     (contrastStage 1 img1).px = img1.px ∧
     (sharpnessStage 1 img1).px = img1.px) :=
  ⟨by decide, c8_enhance_identity img1 (by decide)⟩

/-- Python truthiness of the EXIF block agrees with the spec's notion of a
metadata block being present (a nonempty block). -/
lemma exifAttach_eq (e : Option (List ℕ)) :
    (if exifTruthy e then e else none) =
      (match e with
        | some (b :: bs) => some (b :: bs)
        | _ => none) := by
  cases e with
  | none => rfl
  | some l =>
    cases l with
    | nil => rfl
    | cons b bs => rfl

/-- The source's save-parameter branch chain computes exactly the spec's
encoding table, looked up under the case-normalised extension. -/
lemma select_eq_claimed (sfx : String) (e : Option (List ℕ)) :
    selectSaveParams sfx e = claimedSaveParams sfx e := by
  unfold selectSaveParams claimedSaveParams specEncTable
  by_cases h1 : strLower sfx = ".jpg"
  · simp [h1, List.find?, specJpegParams, exifAttach_eq]
  · have g1 : ¬ ((".jpg" : String) = strLower sfx) := fun hh => h1 hh.symm
    by_cases h2 : strLower sfx = ".jpeg"
    · simp [h2, List.find?, specJpegParams, exifAttach_eq]
    · have g2 : ¬ ((".jpeg" : String) = strLower sfx) := fun hh => h2 hh.symm
      by_cases h3 : strLower sfx = ".webp"
      · simp [h3, h1, h2, List.find?]
      · have g3 : ¬ ((".webp" : String) = strLower sfx) := fun hh => h3 hh.symm
        by_cases h4 : strLower sfx = ".png"
        · simp [h4, h1, h2, h3, List.find?]
        · have g4 : ¬ ((".png" : String) = strLower sfx) := fun hh => h4 hh.symm
          simp [h1, h2, h3, h4, g1, g2, g3, g4, List.find?]

lemma getFile_ensureDir (fs : FS) (d : List String) (p : PyPath) :
    getFile (ensureDir fs d) p = getFile fs p := by
  unfold ensureDir mkdirParents getFile
  split <;> rfl

lemma getFile_setFile_self (fs : FS) (p : PyPath) (d : FileData) :
    getFile (setFile fs p d) p = some d := by
  unfold getFile setFile
  rw [List.find?_cons_of_pos _ (by simp)]
  rfl

lemma getFile_setFile_ne (fs : FS) (p q : PyPath) (d : FileData) (h : q ≠ p) :
    getFile (setFile fs p d) q = getFile fs q := by
  unfold getFile setFile
  rw [List.find?_cons_of_neg _ (by simp only [decide_eq_true_eq]; exact fun hh => h hh.symm)]

/-- C7: On a successful run, the save parameters attached to the written
destination file are selected solely by the spec's encoding table from the
case-normalised destination extension, with the EXIF block of the decoded
source re-attached in the JPEG case exactly when one (nonempty) was
present. -/
theorem c7_save_params (fs : FS) (inP outP : PyPath) (a : Args) (fd : FileData)
    (hs : 0 < a.scale) (hf : getFile fs inP = some fd) :
    (process_image fs inP outP a).1 = Except.ok () ∧
    getFile (process_image fs inP outP a).2 outP =
      some ⟨pipelineImage a fd.img, claimedSaveParams outP.suffix fd.img.exif⟩ := by
  have hex : PathExists fs inP := Or.inl (by rw [hf]; rfl)
  have hg : getFile (ensureDir fs outP.dir) inP = some fd := by
    rw [getFile_ensureDir, hf]
  simp only [process_image]
  rw [if_neg (not_le.mpr hs), if_neg (not_not_intro hex), hg]
  refine ⟨rfl, ?_⟩
  rw [getFile_setFile_self, pipelineImage_exif, select_eq_claimed]

/-- Witness for C7 at a concrete input: destination extension `.WEBP`
(exercising the case-insensitive match). -/
theorem c7_save_params_witness :
    (0 : ℚ) < 1 ∧ getFile fsW pIn = some fd1 ∧
    ((process_image fsW pIn pWebp ⟨1, 1, 1, 1, false, 128, true⟩).1 = Except.ok () ∧
     getFile (process_image fsW pIn pWebp ⟨1, 1, 1, 1, false, 128, true⟩).2 pWebp =
       some ⟨pipelineImage ⟨1, 1, 1, 1, false, 128, true⟩ fd1.img,
             claimedSaveParams pWebp.suffix fd1.img.exif⟩) :=
  ⟨by norm_num, rfl,
   c7_save_params fsW pIn pWebp ⟨1, 1, 1, 1, false, 128, true⟩ fd1 (by norm_num) rfl⟩

lemma dirs_ensureDir (fs : FS) (dd : List String) :
    ∀ d ∈ (ensureDir fs dd).dirs, d ∈ fs.dirs ∨ d ∈ initSegs dd := by
  intro d hd
  unfold ensureDir mkdirParents at hd
  split at hd
  · exact Or.inl hd
  · rcases List.mem_append.mp hd with h | h
    · exact Or.inr h
    · exact Or.inl h

/-- C9 counterexample: invoked with `output_path = input_path` (which
nothing in the code prevents), `process_image` does overwrite the file at
the source path, so the claim as stated (for every invocation the source
file is never mutated) is false. -/
theorem c9_counterexample :
    getFile (process_image fsW pIn pIn ⟨2, 1, 1, 1, false, 128, true⟩).2 pIn ≠
      getFile fsW pIn := by
  have hg : getFile (ensureDir fsW pIn.dir) pIn = some fd1 := by decide
  have h1 : (process_image fsW pIn pIn ⟨2, 1, 1, 1, false, 128, true⟩).2 =
      setFile (ensureDir fsW pIn.dir) pIn
        ⟨pipelineImage ⟨2, 1, 1, 1, false, 128, true⟩ fd1.img,
         selectSaveParams pIn.suffix
           (pipelineImage ⟨2, 1, 1, 1, false, 128, true⟩ fd1.img).exif⟩ := by
    simp only [process_image]
    rw [if_neg (by norm_num), if_neg (not_not_intro (by decide : PathExists fsW pIn)), hg]
  rw [h1, getFile_setFile_self, show getFile fsW pIn = some fd1 from rfl]
  intro h
  have h2 := congrArg FileData.params (Option.some.inj h)
  rw [pipelineImage_exif] at h2
  exact absurd h2 (by decide)

/-- C9 amended: for every invocation whose destination path differs from
the source path, the source file is never mutated, no file other than the
destination is touched, and the only directories that appear are the
destination's parent chain. -/
theorem c9_frame_amended (fs : FS) (inP outP : PyPath) (a : Args) (hne : inP ≠ outP) :
    getFile (process_image fs inP outP a).2 inP = getFile fs inP ∧
    (∀ q, q ≠ outP → getFile (process_image fs inP outP a).2 q = getFile fs q) ∧
    (∀ d ∈ (process_image fs inP outP a).2.dirs, d ∈ fs.dirs ∨ d ∈ initSegs outP.dir) := by
  simp only [process_image]
  by_cases h1 : a.scale ≤ 0
  · rw [if_pos h1]
    exact ⟨rfl, fun q _ => rfl, fun d hd => Or.inl hd⟩
  · rw [if_neg h1]
    by_cases h2 : PathExists fs inP
    · rw [if_neg (not_not_intro h2)]
      cases hg : getFile (ensureDir fs outP.dir) inP with
      | none =>
        simp only [hg]
        exact ⟨((getFile_ensureDir fs outP.dir inP).symm.trans hg).symm,
          fun q _ => getFile_ensureDir fs outP.dir q, dirs_ensureDir fs outP.dir⟩
      | some fd =>
        simp only [hg]
        refine ⟨?_, ?_, ?_⟩
        · rw [getFile_setFile_ne _ _ _ _ hne, getFile_ensureDir]
        · intro q hq
          rw [getFile_setFile_ne _ _ _ _ hq, getFile_ensureDir]
        · intro d hd
          exact dirs_ensureDir fs outP.dir d hd
    · rw [if_pos h2]
      exact ⟨rfl, fun q _ => rfl, fun d hd => Or.inl hd⟩

/-- Witness for the amended C9 at a concrete input with distinct source and
destination paths. -/
theorem c9_frame_amended_witness :
    pIn ≠ pOut ∧
    (getFile (process_image fsW pIn pOut ⟨2, 1, 1, 1, false, 128, true⟩).2 pIn =
        getFile fsW pIn ∧
     (∀ q, q ≠ pOut →
        getFile (process_image fsW pIn pOut ⟨2, 1, 1, 1, false, 128, true⟩).2 q =
          getFile fsW q) ∧
     (∀ d ∈ (process_image fsW pIn pOut ⟨2, 1, 1, 1, false, 128, true⟩).2.dirs,
        d ∈ fsW.dirs ∨ d ∈ initSegs pOut.dir)) :=
  ⟨by decide, c9_frame_amended fsW pIn pOut ⟨2, 1, 1, 1, false, 128, true⟩ (by decide)⟩

/-- C6 counterexample: a binarization threshold of 300 is outside the
documented 0-255 domain, yet the invocation completes successfully - no
invalid-parameter error is raised, contradicting the claim as stated. -/
theorem c6_counterexample :
    (process_image fsW pIn pOut ⟨1, 1, 1, 1, true, 300, false⟩).1 = Except.ok () := by
  have hg : getFile (ensureDir fsW pOut.dir) pIn = some fd1 := by decide
  simp only [process_image]
  rw [if_neg (by norm_num), if_neg (not_not_intro (by decide : PathExists fsW pIn)), hg]

/-- C6 amended: only the scale factor is validated.  With a valid scale
factor, no invalid-parameter error is raised even when the binarization
threshold lies outside its documented 0-255 domain. -/
theorem c6_amended_only_scale_validated (fs : FS) (inP outP : PyPath) (a : Args)
    (_ht : a.bwThreshold < 0 ∨ 255 < a.bwThreshold) (hs : 0 < a.scale) :
    ∀ m, (process_image fs inP outP a).1 ≠ Except.error (PyErr.valueError m) := by
  intro m
  simp only [process_image]
  rw [if_neg (not_le.mpr hs)]
  by_cases h2 : PathExists fs inP
  · rw [if_neg (not_not_intro h2)]
    cases hg : getFile (ensureDir fs outP.dir) inP with
    | none => simp [hg]
    | some fd => simp [hg]
  · rw [if_pos h2]
    simp

/-- Witness for the amended C6 at a concrete input: threshold 300. -/
theorem c6_amended_witness :
    ((300 : ℤ) < 0 ∨ (255 : ℤ) < 300) ∧ (0 : ℚ) < 1 ∧
    (process_image fsW pIn pOut ⟨1, 1, 1, 1, true, 300, false⟩).1 ≠
      Except.error (PyErr.valueError "scale_factor must be > 0") :=
  ⟨Or.inr (by norm_num), by norm_num,
   c6_amended_only_scale_validated fsW pIn pOut ⟨1, 1, 1, 1, true, 300, false⟩
     (Or.inr (by norm_num)) (by norm_num) "scale_factor must be > 0"⟩

/-- C10: When `pure_bw` is false, `bw_threshold` and `dither` have no
influence: two invocations differing only in those parameters produce
identical results (same exception or same final filesystem). -/
theorem c10_unused_params (fs : FS) (inP outP : PyPath) (s b c sh : ℚ)
    (t₁ t₂ : ℤ) (d₁ d₂ : Bool) :
    process_image fs inP outP ⟨s, b, c, sh, false, t₁, d₁⟩ =
      process_image fs inP outP ⟨s, b, c, sh, false, t₂, d₂⟩ := by
  have hp : ∀ (t : ℤ) (d : Bool) (im : Image),
      pipelineImage ⟨s, b, c, sh, false, t, d⟩ im =
        sharpnessStage sh (resizeStage s (contrastStage c
          (brightnessStage b (grayscaleStage (exifTransposeStage im))))) := by
    intro t d im
    rfl
  unfold process_image
  simp only [hp]

end CleanupImage
